import Mathlib

/-!
# Verification of the ToruVault secure secrets cache (`src/vault/vault.py`)

Shallow embedding of the vault module: the TTL'd in-process secrets cache,
the machine-keyed encryption layer around it, and the gateway fetch path
(`_load_secrets` / `get`).

Modelling conventions:
* Python `Dict[str, str]` becomes an insertion-ordered association list with
  unique keys (`SecretMap`); `dict[k] = v` is `dictInsert`.
* Python byte/character strings that the code parses itself (the
  `salt:ciphertext` wire form split on the first colon) are `List Char`.
* `time.time()` timestamps are `Nat`; the float subtraction
  `current_time - timestamp < _SECRET_CACHE_TIMEOUT` becomes Nat subtraction,
  which agrees with the float comparison on every branch the code takes
  (when `current_time < timestamp` both serve from cache).
* The external `cryptography` primitives (PBKDF2HMAC, Fernet, base64url,
  `json.dumps`/`json.loads`) are library collaborators, not repository code;
  they are modelled as an ideal deterministic KDF (injective in
  `(machine_id, salt)`), an ideal authenticated cipher (decryption succeeds
  exactly under the encryption key and restores the plaintext), and an
  injective serialization with a total parser.  The repository-owned parsing
  (split on the first `:`, the failure-to-`None` contract of
  `_decrypt_secrets`) is embedded faithfully over `List Char`.
* Exceptions are `Except PyErr`; the bare `raise` re-raise in
  `_load_secrets` propagates the same `PyErr` value.
* Python object identity, needed for the "callers receive independent
  copies" invariant, is modelled with ghost allocation tags: every dict the
  code allocates (`{}` literals, `.copy()`, the dict built by `json.loads`)
  receives a fresh `Nat` tag from a counter threaded through the functions.
  Tags have no effect on any computed value.
-/

namespace ToruVault

/-- A Python `Dict[str, str]`: insertion-ordered association list. -/
abbrev SecretMap := List (String × String)

/-- `d[k] = v` on a Python dict: overwrite in place if the key exists,
otherwise append. -/
def dictInsert (m : SecretMap) (k v : String) : SecretMap :=
  if m.any (fun p => p.1 == k) then
    m.map (fun p => if p.1 == k then (k, v) else p)
  else
    m ++ [(k, v)]

/-- `k in d` on a Python dict. -/
def containsKey (m : SecretMap) (k : String) : Bool :=
  m.any (fun p => p.1 == k)

/-! ## The encryption layer

`_generate_encryption_key`, `_encrypt_secrets`, `_decrypt_secrets`
(vault.py lines 24-48, 98-150). -/

/-- The key PBKDF2HMAC-derives from the machine id and the salt.  The real
KDF is a fixed-length hash; the model keeps the pair itself, which is the
ideal-KDF assumption: distinct `(machine_id, salt)` inputs give distinct
keys, identical inputs give identical keys (`_generate_encryption_key` is
deterministic given the salt). -/
abbrev FernetKey := String × Nat

/-- `_generate_encryption_key`: PBKDF2(machine_id, salt) as an ideal KDF.
The salt (16 random bytes in the source) is a `Nat` drawn by the caller. -/
def generateEncryptionKey (machineId : String) (salt : Nat) : FernetKey :=
  (machineId, salt)

/-- Character-escaped encoding of a char list: each payload char is preceded
by a `#` marker, the whole string is terminated by `.`.  Stands in for the
byte-level serialization the real cipher applies; injective by construction
and colon-free markers keep the structure decodable. -/
def encodeChars : List Char → List Char
  | [] => ['.']
  | c :: cs => '#' :: c :: encodeChars cs

/-- Inverse of `encodeChars`: returns the decoded chars and the unconsumed
rest, or `none` on malformed input. -/
def decodeChars : List Char → Option (List Char × List Char)
  | '.' :: rest => some ([], rest)
  | '#' :: c :: rest => (decodeChars rest).map (fun p => (c :: p.1, p.2))
  | _ => none

/-- Encode a Lean `String` (a Python `str` field). -/
def encodeStr (s : String) : List Char := encodeChars s.data

/-- Decode a `String`, returning the rest of the input. -/
def decodeStr (l : List Char) : Option (String × List Char) :=
  (decodeChars l).map (fun p => (String.mk p.1, p.2))

/-- Unary-with-terminator encoding of a `Nat` (used for the salt inside the
modelled Fernet token). -/
def encodeNat : Nat → List Char
  | 0 => [',']
  | n + 1 => 'x' :: encodeNat n

/-- Inverse of `encodeNat`. -/
def decodeNat : List Char → Option (Nat × List Char)
  | ',' :: rest => some (0, rest)
  | 'x' :: rest => (decodeNat rest).map (fun p => (p.1 + 1, p.2))
  | _ => none

/-- `json.dumps` on a secrets dict: each pair is the two escaped strings in
sequence; the list ends with the end of the byte string (the cipher
plaintext is consumed whole by `json.loads`). -/
def jsonDumps : SecretMap → List Char
  | [] => []
  | (a, b) :: rest => encodeStr a ++ encodeStr b ++ jsonDumps rest

/-- Fuelled parser for `jsonDumps` output. -/
def jsonLoadsAux : Nat → List Char → Option SecretMap
  | _, [] => some []
  | 0, _ => none
  | fuel + 1, l =>
    match decodeStr l with
    | none => none
    | some (a, r1) =>
      match decodeStr r1 with
      | none => none
      | some (b, r2) =>
        match jsonLoadsAux fuel r2 with
        | none => none
        | some ps => some ((a, b) :: ps)

/-- `json.loads` on a cipher plaintext: total, `none` on parse failure
(models `json.JSONDecodeError` being caught). -/
def jsonLoads (l : List Char) : Option SecretMap :=
  jsonLoadsAux (l.length + 1) l

/-- Ideal Fernet encryption: the token determines the key it was produced
under and the plaintext. -/
def fernetEncrypt (k : FernetKey) (plaintext : List Char) : List Char :=
  encodeStr k.1 ++ encodeNat k.2 ++ plaintext

/-- Ideal authenticated Fernet decryption: recover the embedded key and
plaintext; succeed only if the supplied key matches (`InvalidToken`
otherwise, modelled as `none`). -/
def fernetDecrypt (k : FernetKey) (token : List Char) : Option (List Char) :=
  match decodeStr token with
  | none => none
  | some (mid, r1) =>
    match decodeNat r1 with
    | none => none
    | some (salt, pt) => if (mid, salt) = k then some pt else none

/-- `base64.urlsafe_b64encode(salt)`: an injective, colon-free rendering of
the salt (the base64url alphabet contains no `:`). -/
def encodeSalt (salt : Nat) : List Char := List.replicate salt 'x'

/-- `base64.urlsafe_b64decode`: total inverse, `none` on malformed input
(models `binascii.Error` being caught). -/
def decodeSalt : List Char → Option Nat
  | [] => some 0
  | 'x' :: rest => (decodeSalt rest).map (· + 1)
  | _ => none

/-- `_encrypt_secrets` (lines 98-121): serialize, derive a fresh key from a
fresh salt, encrypt, and prepend the encoded salt with a `:` separator.
`cryptoOk = false` models the `except` branch (`os.urandom` or the cipher
failing), which returns `None` rather than raising. -/
def encryptSecrets (cryptoOk : Bool) (machineId : String) (salt : Nat)
    (m : SecretMap) : Option (List Char) :=
  if cryptoOk then
    some (encodeSalt salt ++ ':' ::
      fernetEncrypt (generateEncryptionKey machineId salt) (jsonDumps m))
  else none

/-- Python `str.split(sep, 1)` restricted to the shape `_decrypt_secrets`
uses: `none` when the separator is absent (the two-element unpacking then
raises `ValueError`, caught by the handler). -/
def splitFirst (sep : Char) : List Char → Option (List Char × List Char)
  | [] => none
  | c :: cs =>
    if c = sep then some ([], cs)
    else (splitFirst sep cs).map (fun p => (c :: p.1, p.2))

/-- `_decrypt_secrets` (lines 123-150): split on the first `:`, decode the
salt, re-derive the key under the *current* machine identity, decrypt,
parse.  Every failure returns `none` (the `except Exception` handler). -/
def decryptSecrets (machineId : String) (data : List Char) : Option SecretMap :=
  match splitFirst ':' data with
  | none => none
  | some (saltB64, encrypted) =>
    match decodeSalt saltB64 with
    | none => none
    | some salt =>
      match fernetDecrypt (generateEncryptionKey machineId salt) encrypted with
      | none => none
      | some pt => jsonLoads pt

/-! ## The cache and the gateway fetch path

`_secrets_cache`, `_load_secrets`, `get` (vault.py lines 21-22, 223-312,
331-366). -/

/-- The ghost-tagged value of a Python dict object: `tag` is the object's
identity (fresh per allocation), `val` its contents. -/
structure TaggedMap where
  tag : Nat
  val : SecretMap
deriving DecidableEq

/-- The second component of a `_secrets_cache` entry: either the encrypted
string produced by `_encrypt_secrets`, or (fallback tier, line 307) the
plaintext dict stored when encryption failed. -/
inductive Payload
  | enc (data : List Char)
  | plain (d : TaggedMap)
deriving DecidableEq

/-- Python truthiness of the payload (`if encrypted_secrets:` line 252/357):
a string is truthy iff non-empty, a dict iff non-empty. -/
def Payload.truthy : Payload → Bool
  | .enc s => !s.isEmpty
  | .plain d => !d.val.isEmpty

/-- `_decrypt_secrets` applied to whatever is stored in the cache: on a
dict payload, `encrypted_data.split(":", 1)` raises `AttributeError`, which
the handler turns into `None`. -/
def decryptPayload (machineId : String) : Payload → Option SecretMap
  | .enc s => decryptSecrets machineId s
  | .plain _ => none

/-- One `_secrets_cache` value: `(timestamp, payload)`. -/
structure CacheEntry where
  timestamp : Nat
  payload : Payload
deriving DecidableEq

/-- The module-level `_secrets_cache` dict, keyed by
`f"{organization_id}:{project_id or ''}"`. -/
abbrev Cache := List (String × CacheEntry)

/-- `cache_key in _secrets_cache` / `_secrets_cache[cache_key]`. -/
def cacheLookup (c : Cache) (k : String) : Option CacheEntry :=
  match c.find? (fun p => p.1 == k) with
  | none => none
  | some p => some p.2

/-- `_secrets_cache[cache_key] = entry`. -/
def cacheStore (c : Cache) (k : String) (e : CacheEntry) : Cache :=
  if c.any (fun p => p.1 == k) then
    c.map (fun p => if p.1 == k then (k, e) else p)
  else
    c ++ [(k, e)]

/-- `_SECRET_CACHE_TIMEOUT = 300` (line 21). -/
def secretCacheTimeout : Nat := 300

/-- The shared cache-consult block (lines 250-258 of `_load_secrets` and
355-363 of `get`): inside the freshness window, a truthy payload is fed to
`_decrypt_secrets` and served only if the decrypted dict is truthy; a falsy
payload that is a dict (only `{}` qualifies) is served as a `.copy()`.
Every other case falls through (`none`).  The result dict gets a fresh
allocation tag (`json.loads` / `.copy()` allocate). -/
def servePayload (machineId : String) (p : Payload) (next : Nat) :
    Option (TaggedMap × Nat) :=
  if p.truthy then
    match decryptPayload machineId p with
    | some m => if m.isEmpty then none else some (⟨next, m⟩, next + 1)
    | none => none
  else
    match p with
    | .plain d => some (⟨next, d.val⟩, next + 1)
    | .enc _ => none

/-- The cache-hit attempt including the TTL guard
(`current_time - timestamp < _SECRET_CACHE_TIMEOUT`, line 250/355). -/
def serveFromCache (machineId : String) (entry : CacheEntry) (now next : Nat) :
    Option (TaggedMap × Nat) :=
  if now - entry.timestamp < secretCacheTimeout then
    servePayload machineId entry.payload next
  else none

/-- Exceptions that cross the embedded functions: `ValueError` raised by the
configuration checks, and any error raised by the Bitwarden SDK
(`ProviderError` in the spec's taxonomy). -/
inductive PyErr
  | valueError (msg : String)
  | provider (msg : String)
deriving DecidableEq

/-- The environment variables the module reads.  `API_URL`/`IDENTITY_URL`
have defaults and do not influence control flow, so they are omitted. -/
structure Env where
  bwsToken : Option String
  stateFile : Option String
  organizationId : Option String

/-- Python truthiness of `os.getenv` results: `None` and `""` are falsy. -/
def pyTruthy : Option String → Bool
  | none => false
  | some s => !s.isEmpty

/-- `f"{x}"` on an optional string: `None` renders as `"None"`. -/
def pyFormatOpt : Option String → String
  | none => "None"
  | some s => s

/-- `x or ''` on an optional string. -/
def pyOrEmpty : Option String → String
  | none => ""
  | some s => s

/-- One secret record as consumed from `secrets_detailed.data.data`
(lines 291-300): `project_id` is `getattr(secret, 'project_id', None)`,
so an absent attribute and an explicit `None` both become `none`. -/
structure SecretRecord where
  id : String
  key : String
  value : String
  projectId : Option String
deriving DecidableEq

/-- The external Bitwarden client as an oracle for one fetch sequence:
the outcome of `sync`, of `list` (`none` inside `ok` models a response
missing the `.data.data` structure), and of `get_by_ids` (likewise).
Authentication failures in `login_access_token` behave exactly like a
`syncResult` error (both are non-`ValueError` exceptions raised before any
data is processed), so they are folded into `syncResult`. -/
structure Gateway where
  syncResult : Except PyErr Unit
  listResult : Except PyErr (Option (List String))
  detailResult : Except PyErr (Option (List SecretRecord))

/-- `_initialize_client` (lines 178-221) reduced to its control flow: the
two required-variable checks raise `ValueError`; directory creation,
permission hardening and client construction are external side effects with
no bearing on the returned data. -/
def clientInit (env : Env) : Except PyErr Unit :=
  if ¬ pyTruthy env.bwsToken then
    .error (.valueError "BWS_TOKEN environment variable is required")
  else if ¬ pyTruthy env.stateFile then
    .error (.valueError "STATE_FILE environment variable is required")
  else .ok ()

/-- Resolution of the organization id (lines 237-240): a falsy argument
falls back to `ORGANIZATION_ID` from the environment. -/
def resolveOrg (env : Env) (orgId : Option String) : Option String :=
  if pyTruthy orgId then orgId else env.organizationId

/-- The project filter of lines 291-300: skip a record iff the filter is
truthy, the record's `project_id` is not `None`, and the two differ as
strings. -/
def skipSecret (projectId : Option String) (r : SecretRecord) : Bool :=
  pyTruthy projectId &&
    (match r.projectId with
     | none => false
     | some spid => pyOrEmpty projectId != spid)

/-- The `for secret in secrets_detailed.data.data` loop body
(lines 291-300), building the `secrets` dict. -/
def processSecrets (projectId : Option String) (recs : List SecretRecord) :
    SecretMap :=
  recs.foldl
    (fun acc r => if skipSecret projectId r then acc
                  else dictInsert acc r.key r.value) []

/-- The result of one `_load_secrets` / `get` call: the returned dict or
the propagated exception, the cache afterwards, the allocation counter
afterwards, and how many gateway fetch sequences were started (a fetch
sequence starts when `client.secrets().sync` is reached). -/
structure LoadResult where
  result : Except PyErr TaggedMap
  cache : Cache
  next : Nat
  gatewayCalls : Nat

/-- The returned secrets with the ghost tag erased. -/
def LoadResult.resultVal (r : LoadResult) : Except PyErr SecretMap :=
  r.result.map TaggedMap.val

/-- The cache-update-and-return tail of `_load_secrets` (lines 302-309):
re-encrypt with a fresh salt; store the encrypted string, or on encryption
failure store `secrets.copy()` (a fresh dict, tag `next + 1`); return the
`secrets` dict built by the loop (tag `next`). -/
def finishFetch (machineId : String) (cryptoOk : Bool) (cache : Cache)
    (now next salt : Nat) (cacheKey : String) (content : SecretMap) :
    LoadResult :=
  match encryptSecrets cryptoOk machineId salt content with
  | some encData =>
      ⟨.ok ⟨next, content⟩,
        cacheStore cache cacheKey ⟨now, .enc encData⟩, next + 1, 1⟩
  | none =>
      ⟨.ok ⟨next, content⟩,
        cacheStore cache cacheKey ⟨now, .plain ⟨next + 1, content⟩⟩,
        next + 2, 1⟩

/-- The `try` block of `_load_secrets` (lines 260-312) after the cache
miss: initialize the client (`ValueError` on missing configuration),
sync, list, fetch details, filter, store, return.  The `secrets = {}` dict
of line 267 carries tag `next`; the bare `return {}` literals of lines 274
and 288 allocate a fresh dict (tag `next + 1`) and skip the cache update.
Exceptions propagate unchanged (`except ... raise`, lines 310-312). -/
def fetchFromGateway (machineId : String) (cryptoOk : Bool) (env : Env)
    (gw : Gateway) (cache : Cache) (now next salt : Nat)
    (projId : Option String) (cacheKey : String) : LoadResult :=
  match clientInit env with
  | .error e => ⟨.error e, cache, next, 0⟩
  | .ok _ =>
    match gw.syncResult with
    | .error e => ⟨.error e, cache, next, 1⟩
    | .ok _ =>
      match gw.listResult with
      | .error e => ⟨.error e, cache, next + 1, 1⟩
      | .ok none => ⟨.ok ⟨next + 1, []⟩, cache, next + 2, 1⟩
      | .ok (some ids) =>
        if ids.isEmpty then
          finishFetch machineId cryptoOk cache now next salt cacheKey []
        else
          match gw.detailResult with
          | .error e => ⟨.error e, cache, next + 1, 1⟩
          | .ok none => ⟨.ok ⟨next + 1, []⟩, cache, next + 2, 1⟩
          | .ok (some recs) =>
            finishFetch machineId cryptoOk cache now next salt cacheKey
              (processSecrets projId recs)

/-- `_load_secrets` (lines 223-312): validate the organization id, consult
the cache under the TTL, fall back to the gateway fetch. -/
def loadSecrets (machineId : String) (cryptoOk : Bool) (env : Env)
    (gw : Gateway) (cache : Cache) (now next salt : Nat)
    (orgId projId : Option String) : LoadResult :=
  let org := resolveOrg env orgId
  if pyTruthy org then
    let cacheKey := pyOrEmpty org ++ ":" ++ pyOrEmpty projId
    match cacheLookup cache cacheKey with
    | some entry =>
      match serveFromCache machineId entry now next with
      | some (t, next') => ⟨.ok t, cache, next', 0⟩
      | none =>
        fetchFromGateway machineId cryptoOk env gw cache now next salt
          projId cacheKey
    | none =>
      fetchFromGateway machineId cryptoOk env gw cache now next salt
        projId cacheKey
  else
    ⟨.error (.valueError "ORGANIZATION_ID environment variable is required"),
      cache, next, 0⟩

/-- `get` (lines 331-366): with `refresh` it delegates straight to
`_load_secrets`; otherwise it first tries the cache itself (note the key
uses the raw `organization_id`, rendering `None` as `"None"`), then
delegates. -/
def vaultGet (machineId : String) (cryptoOk : Bool) (env : Env)
    (gw : Gateway) (cache : Cache) (now next salt : Nat)
    (orgId projId : Option String) (refresh : Bool) : LoadResult :=
  if refresh then
    loadSecrets machineId cryptoOk env gw cache now next salt orgId projId
  else
    let cacheKey := pyFormatOpt orgId ++ ":" ++ pyOrEmpty projId
    match cacheLookup cache cacheKey with
    | some entry =>
      match serveFromCache machineId entry now next with
      | some (t, next') => ⟨.ok t, cache, next', 0⟩
      | none =>
        loadSecrets machineId cryptoOk env gw cache now next salt orgId projId
    | none =>
      loadSecrets machineId cryptoOk env gw cache now next salt orgId projId

end ToruVault

namespace ToruVault

/-! ## Round-trip lemmas for the encoding layer -/

theorem decodeChars_encodeChars (l rest : List Char) :
    decodeChars (encodeChars l ++ rest) = some (l, rest) := by
  induction l with
  | nil => simp [encodeChars, decodeChars]
  | cons c cs ih => simp [encodeChars, decodeChars, ih]

theorem decodeStr_encodeStr (s : String) (rest : List Char) :
    decodeStr (encodeStr s ++ rest) = some (s, rest) := by
  simp [decodeStr, encodeStr, decodeChars_encodeChars]

theorem decodeNat_encodeNat (n : Nat) (rest : List Char) :
    decodeNat (encodeNat n ++ rest) = some (n, rest) := by
  induction n with
  | zero => simp [encodeNat, decodeNat]
  | succ m ih => simp [encodeNat, decodeNat, ih]

theorem fernetDecrypt_fernetEncrypt (k : FernetKey) (pt : List Char) :
    fernetDecrypt k (fernetEncrypt k pt) = some pt := by
  obtain ⟨mid, salt⟩ := k
  simp [fernetEncrypt, fernetDecrypt, decodeStr_encodeStr, decodeNat_encodeNat]

theorem fernetDecrypt_foreign (k k' : FernetKey) (pt : List Char)
    (h : k' ≠ k) : fernetDecrypt k' (fernetEncrypt k pt) = none := by
  obtain ⟨mid, salt⟩ := k
  simp [fernetEncrypt, fernetDecrypt, decodeStr_encodeStr, decodeNat_encodeNat]
  intro h'
  exact absurd h'.symm h

theorem jsonLoadsAux_jsonDumps (m : SecretMap) :
    ∀ fuel, m.length ≤ fuel → jsonLoadsAux fuel (jsonDumps m) = some m := by
  induction m with
  | nil => intro fuel _; cases fuel <;> simp [jsonDumps, jsonLoadsAux]
  | cons p rest ih =>
    intro fuel hf
    obtain ⟨a, b⟩ := p
    cases fuel with
    | zero => simp at hf
    | succ f =>
      have hne : jsonDumps ((a, b) :: rest) ≠ [] := by
        simp [jsonDumps, encodeStr, encodeChars]
        cases a.data <;> simp [encodeChars]
      rw [jsonDumps]
      rw [show encodeStr a ++ encodeStr b ++ jsonDumps rest
            = encodeStr a ++ (encodeStr b ++ jsonDumps rest) by simp]
      cases hcase : encodeStr a ++ (encodeStr b ++ jsonDumps rest) with
      | nil =>
        exfalso
        have : encodeStr a ≠ [] := by
          simp [encodeStr]; cases a.data <;> simp [encodeChars]
        simp at hcase
        exact this hcase.1
      | cons c cs =>
        rw [← hcase, jsonLoadsAux, decodeStr_encodeStr]
        · simp only [decodeStr_encodeStr, ih f (Nat.le_of_succ_le_succ hf)]
        · rw [hcase]; exact fun h => List.noConfusion h

theorem one_le_length_encodeStr (s : String) : 1 ≤ (encodeStr s).length := by
  simp only [encodeStr]
  cases s.data <;> simp [encodeChars]

theorem length_le_jsonDumps (m : SecretMap) :
    m.length ≤ (jsonDumps m).length := by
  induction m with
  | nil => simp [jsonDumps]
  | cons p rest ih =>
    obtain ⟨a, b⟩ := p
    simp only [jsonDumps, List.length_cons, List.length_append]
    have ha := one_le_length_encodeStr a
    omega

theorem jsonLoads_jsonDumps (m : SecretMap) :
    jsonLoads (jsonDumps m) = some m := by
  apply jsonLoadsAux_jsonDumps
  have := length_le_jsonDumps m
  omega

theorem splitFirst_salt (n : Nat) (rest : List Char) :
    splitFirst ':' (List.replicate n 'x' ++ ':' :: rest)
      = some (List.replicate n 'x', rest) := by
  induction n with
  | zero => simp [splitFirst]
  | succ k ih =>
    rw [List.replicate_succ]
    simp only [List.cons_append, splitFirst]
    rw [if_neg (by decide),
      show (List.replicate k 'x').append (':' :: rest)
        = List.replicate k 'x' ++ ':' :: rest from rfl, ih]
    rfl

theorem decodeSalt_replicate (n : Nat) :
    decodeSalt (List.replicate n 'x') = some n := by
  induction n with
  | zero => simp [decodeSalt]
  | succ k ih => rw [List.replicate_succ]; simp [decodeSalt, ih]

theorem decryptSecrets_encryptSecrets (cryptoOk : Bool) (machineId : String)
    (salt : Nat) (m : SecretMap) (p : List Char)
    (h : encryptSecrets cryptoOk machineId salt m = some p) :
    decryptSecrets machineId p = some m := by
  cases cryptoOk with
  | false => simp [encryptSecrets] at h
  | true =>
    rw [show encryptSecrets true machineId salt m
          = some (encodeSalt salt ++ ':' ::
              fernetEncrypt (generateEncryptionKey machineId salt)
                (jsonDumps m)) from rfl,
      Option.some.injEq] at h
    subst h
    simp only [decryptSecrets, encodeSalt, splitFirst_salt,
      decodeSalt_replicate, fernetDecrypt_fernetEncrypt, jsonLoads_jsonDumps]

theorem splitFirst_eq_none (sep : Char) (l : List Char) (h : sep ∉ l) :
    splitFirst sep l = none := by
  induction l with
  | nil => rfl
  | cons c cs ih =>
    simp only [List.mem_cons, not_or] at h
    simp only [splitFirst, ih h.2]
    rw [if_neg]
    · rfl
    · intro hc; exact h.1 hc.symm

/-! ## Unfolding lemmas for the cache paths -/

theorem pyTruthy_some {s : String} (h : s.isEmpty = false) :
    pyTruthy (some s) = true := by
  simp [pyTruthy, h]

theorem resolveOrg_some (env : Env) {org : String} (h : org.isEmpty = false) :
    resolveOrg env (some org) = some org := by
  simp [resolveOrg, pyTruthy_some h]

theorem pyOrEmpty_some (s : String) : pyOrEmpty (some s) = s := rfl

theorem loadSecrets_eq_fetch (machineId : String) (cryptoOk : Bool)
    (env : Env) (gw : Gateway) (cache : Cache) (now next salt : Nat)
    {org : String} (projId : Option String) (horg : org.isEmpty = false)
    (hmiss : ∀ e, cacheLookup cache (org ++ ":" ++ pyOrEmpty projId) = some e →
        serveFromCache machineId e now next = none) :
    loadSecrets machineId cryptoOk env gw cache now next salt (some org) projId
      = fetchFromGateway machineId cryptoOk env gw cache now next salt projId
          (org ++ ":" ++ pyOrEmpty projId) := by
  simp only [loadSecrets, resolveOrg_some env horg, pyTruthy_some horg,
    if_true, pyOrEmpty_some]
  cases hl : cacheLookup cache (org ++ ":" ++ pyOrEmpty projId) with
  | none => rfl
  | some e => simp [hmiss e hl]

theorem loadSecrets_cache_hit (machineId : String) (cryptoOk : Bool)
    (env : Env) (gw : Gateway) (cache : Cache) (now next salt : Nat)
    {org : String} (projId : Option String) (horg : org.isEmpty = false)
    {e : CacheEntry} {t : TaggedMap} {n' : Nat}
    (hl : cacheLookup cache (org ++ ":" ++ pyOrEmpty projId) = some e)
    (hs : serveFromCache machineId e now next = some (t, n')) :
    loadSecrets machineId cryptoOk env gw cache now next salt (some org) projId
      = ⟨.ok t, cache, n', 0⟩ := by
  simp only [loadSecrets, resolveOrg_some env horg, pyTruthy_some horg,
    if_true, pyOrEmpty_some]
  rw [hl]
  simp [hs]

theorem vaultGet_refresh (machineId : String) (cryptoOk : Bool) (env : Env)
    (gw : Gateway) (cache : Cache) (now next salt : Nat)
    (orgId projId : Option String) :
    vaultGet machineId cryptoOk env gw cache now next salt orgId projId true
      = loadSecrets machineId cryptoOk env gw cache now next salt orgId projId
      := by
  simp [vaultGet]

theorem vaultGet_eq_load (machineId : String) (cryptoOk : Bool) (env : Env)
    (gw : Gateway) (cache : Cache) (now next salt : Nat)
    (orgId projId : Option String)
    (hmiss : ∀ e, cacheLookup cache
        (pyFormatOpt orgId ++ ":" ++ pyOrEmpty projId) = some e →
        serveFromCache machineId e now next = none) :
    vaultGet machineId cryptoOk env gw cache now next salt orgId projId false
      = loadSecrets machineId cryptoOk env gw cache now next salt orgId projId
      := by
  simp only [vaultGet, Bool.false_eq_true, if_false]
  cases hl : cacheLookup cache (pyFormatOpt orgId ++ ":" ++ pyOrEmpty projId)
    with
  | none => rfl
  | some e => simp [hmiss e hl]

theorem vaultGet_cache_hit (machineId : String) (cryptoOk : Bool) (env : Env)
    (gw : Gateway) (cache : Cache) (now next salt : Nat)
    (orgId projId : Option String) {e : CacheEntry} {t : TaggedMap} {n' : Nat}
    (hl : cacheLookup cache (pyFormatOpt orgId ++ ":" ++ pyOrEmpty projId)
        = some e)
    (hs : serveFromCache machineId e now next = some (t, n')) :
    vaultGet machineId cryptoOk env gw cache now next salt orgId projId false
      = ⟨.ok t, cache, n', 0⟩ := by
  simp only [vaultGet, Bool.false_eq_true, if_false]
  rw [hl]
  simp [hs]

theorem fetch_missing_token (machineId : String) (cryptoOk : Bool) (env : Env)
    (gw : Gateway) (cache : Cache) (now next salt : Nat)
    (projId : Option String) (cacheKey : String)
    (htok : pyTruthy env.bwsToken = false) :
    fetchFromGateway machineId cryptoOk env gw cache now next salt projId
        cacheKey
      = ⟨.error (.valueError "BWS_TOKEN environment variable is required"),
          cache, next, 0⟩ := by
  simp [fetchFromGateway, clientInit, htok]

theorem fetch_missing_state_file (machineId : String) (cryptoOk : Bool)
    (env : Env) (gw : Gateway) (cache : Cache) (now next salt : Nat)
    (projId : Option String) (cacheKey : String)
    (htok : pyTruthy env.bwsToken = true)
    (hsf : pyTruthy env.stateFile = false) :
    fetchFromGateway machineId cryptoOk env gw cache now next salt projId
        cacheKey
      = ⟨.error (.valueError "STATE_FILE environment variable is required"),
          cache, next, 0⟩ := by
  simp [fetchFromGateway, clientInit, htok, hsf]

theorem clientInit_ok (env : Env) (htok : pyTruthy env.bwsToken = true)
    (hsf : pyTruthy env.stateFile = true) : clientInit env = .ok () := by
  simp [clientInit, htok, hsf]

theorem finishFetch_result (machineId : String) (cryptoOk : Bool)
    (cache : Cache) (now next salt : Nat) (cacheKey : String)
    (content : SecretMap) :
    (finishFetch machineId cryptoOk cache now next salt cacheKey content).result
        = .ok ⟨next, content⟩
      ∧ (finishFetch machineId cryptoOk cache now next salt cacheKey
          content).gatewayCalls = 1 := by
  unfold finishFetch
  cases encryptSecrets cryptoOk machineId salt content <;> exact ⟨rfl, rfl⟩

theorem fetch_success (machineId : String) (cryptoOk : Bool) (env : Env)
    (gw : Gateway) (cache : Cache) (now next salt : Nat)
    (projId : Option String) (cacheKey : String)
    (htok : pyTruthy env.bwsToken = true)
    (hsf : pyTruthy env.stateFile = true)
    (hsync : gw.syncResult = .ok ()) {ids : List String}
    (hlist : gw.listResult = .ok (some ids)) (hne : ids ≠ [])
    {recs : List SecretRecord} (hdet : gw.detailResult = .ok (some recs)) :
    fetchFromGateway machineId cryptoOk env gw cache now next salt projId
        cacheKey
      = finishFetch machineId cryptoOk cache now next salt cacheKey
          (processSecrets projId recs) := by
  simp [fetchFromGateway, clientInit_ok env htok hsf, hsync, hlist, hdet,
    List.isEmpty_iff, hne]

theorem fetch_sync_error (machineId : String) (cryptoOk : Bool) (env : Env)
    (gw : Gateway) (cache : Cache) (now next salt : Nat)
    (projId : Option String) (cacheKey : String)
    (htok : pyTruthy env.bwsToken = true)
    (hsf : pyTruthy env.stateFile = true) {e : PyErr}
    (hsync : gw.syncResult = .error e) :
    fetchFromGateway machineId cryptoOk env gw cache now next salt projId
        cacheKey
      = ⟨.error e, cache, next, 1⟩ := by
  simp [fetchFromGateway, clientInit_ok env htok hsf, hsync]

theorem fetch_list_error (machineId : String) (cryptoOk : Bool) (env : Env)
    (gw : Gateway) (cache : Cache) (now next salt : Nat)
    (projId : Option String) (cacheKey : String)
    (htok : pyTruthy env.bwsToken = true)
    (hsf : pyTruthy env.stateFile = true)
    (hsync : gw.syncResult = .ok ()) {e : PyErr}
    (hlist : gw.listResult = .error e) :
    fetchFromGateway machineId cryptoOk env gw cache now next salt projId
        cacheKey
      = ⟨.error e, cache, next + 1, 1⟩ := by
  simp [fetchFromGateway, clientInit_ok env htok hsf, hsync, hlist]

theorem fetch_detail_error (machineId : String) (cryptoOk : Bool) (env : Env)
    (gw : Gateway) (cache : Cache) (now next salt : Nat)
    (projId : Option String) (cacheKey : String)
    (htok : pyTruthy env.bwsToken = true)
    (hsf : pyTruthy env.stateFile = true)
    (hsync : gw.syncResult = .ok ()) {ids : List String}
    (hlist : gw.listResult = .ok (some ids)) (hne : ids ≠ []) {e : PyErr}
    (hdet : gw.detailResult = .error e) :
    fetchFromGateway machineId cryptoOk env gw cache now next salt projId
        cacheKey
      = ⟨.error e, cache, next + 1, 1⟩ := by
  simp [fetchFromGateway, clientInit_ok env htok hsf, hsync, hlist,
    List.isEmpty_iff, hne, hdet]

theorem fetch_list_malformed (machineId : String) (cryptoOk : Bool)
    (env : Env) (gw : Gateway) (cache : Cache) (now next salt : Nat)
    (projId : Option String) (cacheKey : String)
    (htok : pyTruthy env.bwsToken = true)
    (hsf : pyTruthy env.stateFile = true)
    (hsync : gw.syncResult = .ok ())
    (hlist : gw.listResult = .ok none) :
    fetchFromGateway machineId cryptoOk env gw cache now next salt projId
        cacheKey
      = ⟨.ok ⟨next + 1, []⟩, cache, next + 2, 1⟩ := by
  simp [fetchFromGateway, clientInit_ok env htok hsf, hsync, hlist]

theorem fetch_detail_malformed (machineId : String) (cryptoOk : Bool)
    (env : Env) (gw : Gateway) (cache : Cache) (now next salt : Nat)
    (projId : Option String) (cacheKey : String)
    (htok : pyTruthy env.bwsToken = true)
    (hsf : pyTruthy env.stateFile = true)
    (hsync : gw.syncResult = .ok ()) {ids : List String}
    (hlist : gw.listResult = .ok (some ids)) (hne : ids ≠ [])
    (hdet : gw.detailResult = .ok none) :
    fetchFromGateway machineId cryptoOk env gw cache now next salt projId
        cacheKey
      = ⟨.ok ⟨next + 1, []⟩, cache, next + 2, 1⟩ := by
  simp [fetchFromGateway, clientInit_ok env htok hsf, hsync, hlist,
    List.isEmpty_iff, hne, hdet]

theorem fetch_calls_one (machineId : String) (cryptoOk : Bool) (env : Env)
    (gw : Gateway) (cache : Cache) (now next salt : Nat)
    (projId : Option String) (cacheKey : String)
    (htok : pyTruthy env.bwsToken = true)
    (hsf : pyTruthy env.stateFile = true) :
    (fetchFromGateway machineId cryptoOk env gw cache now next salt projId
        cacheKey).gatewayCalls = 1 := by
  unfold fetchFromGateway
  rw [clientInit_ok env htok hsf]
  rcases gw with ⟨sync, list, detail⟩
  rcases sync with e | u
  · rfl
  · rcases list with e | ids
    · rfl
    · rcases ids with _ | ids
      · rfl
      · simp only []
        rcases hi : ids.isEmpty with _ | _
        · simp only [Bool.false_eq_true, if_false]
          rcases detail with e | recs
          · rfl
          · rcases recs with _ | recs
            · rfl
            · exact (finishFetch_result machineId cryptoOk cache now next
                salt cacheKey (processSecrets projId recs)).2
        · simp only [if_true]
          exact (finishFetch_result machineId cryptoOk cache now next salt
            cacheKey []).2

/-! ## Dict lemmas for the project-filter loop -/

theorem containsKey_dictInsert_self (m : SecretMap) (k v : String) :
    containsKey (dictInsert m k v) k = true := by
  unfold dictInsert containsKey
  cases hany : m.any (fun p => p.1 == k) with
  | true =>
    simp only [if_true]
    rw [List.any_map]
    rcases List.any_eq_true.mp hany with ⟨p, hp, hpk⟩
    exact List.any_eq_true.mpr ⟨p, hp, by simp [Function.comp, hpk]⟩
  | false =>
    simp only [Bool.false_eq_true, if_false, List.any_append]
    simp

theorem containsKey_dictInsert_mono (m : SecretMap) (k v k' : String)
    (h : containsKey m k' = true) :
    containsKey (dictInsert m k v) k' = true := by
  unfold dictInsert containsKey
  cases hany : m.any (fun p => p.1 == k) with
  | true =>
    simp only [if_true]
    rw [List.any_map]
    rcases List.any_eq_true.mp h with ⟨p, hp, hpk⟩
    refine List.any_eq_true.mpr ⟨p, hp, ?_⟩
    simp only [Function.comp]
    by_cases hk : p.1 == k
    · rw [if_pos hk]
      have h1 : p.1 = k := by simpa using hk
      have h2 : p.1 = k' := by simpa using hpk
      simp [← h1, h2]
    · rw [if_neg hk]; exact hpk
  | false =>
    simp only [Bool.false_eq_true, if_false, List.any_append]
    unfold containsKey at h
    simp [h]

theorem containsKey_processStep (projId : Option String)
    (recs : List SecretRecord) :
    ∀ (acc : SecretMap) (k : String), containsKey acc k = true →
      containsKey (recs.foldl
        (fun acc r => if skipSecret projId r then acc
                      else dictInsert acc r.key r.value) acc) k = true := by
  induction recs with
  | nil => intro acc k h; simpa using h
  | cons r rest ih =>
    intro acc k h
    simp only [List.foldl_cons]
    apply ih
    by_cases hs : skipSecret projId r
    · simp [hs, h]
    · simp [hs, containsKey_dictInsert_mono _ _ _ _ h]

theorem skipSecret_none (projId : Option String) (r : SecretRecord)
    (h : r.projectId = none) : skipSecret projId r = false := by
  simp [skipSecret, h]

/-! ## Ghost-tag bookkeeping for the copy-independence invariant -/

/-- The identity of the dict object a payload holds (an encrypted string
holds none). -/
def payloadTags : Payload → List Nat
  | .enc _ => []
  | .plain d => [d.tag]

/-- All dict objects referenced from the cache. -/
def cacheTags (c : Cache) : List Nat :=
  c.foldr (fun kv acc => payloadTags kv.2.payload ++ acc) []

/-- Every dict the cache references was allocated before counter `n`. -/
def WellTagged (c : Cache) (n : Nat) : Prop :=
  ∀ t ∈ cacheTags c, t < n

theorem cacheTags_append (a b : Cache) :
    cacheTags (a ++ b) = cacheTags a ++ cacheTags b := by
  induction a with
  | nil => simp [cacheTags]
  | cons kv rest ih =>
    simp only [List.cons_append, cacheTags, List.foldr_cons] at *
    rw [ih]
    simp

theorem mem_cacheTags_store {t : Nat} (c : Cache) (k : String)
    (e : CacheEntry) (h : t ∈ cacheTags (cacheStore c k e)) :
    t ∈ cacheTags c ∨ t ∈ payloadTags e.payload := by
  unfold cacheStore at h
  by_cases hany : c.any (fun p => p.1 == k)
  · rw [if_pos hany] at h
    clear hany
    induction c with
    | nil => simp [cacheTags] at h
    | cons kv rest ih =>
      simp only [List.map_cons, cacheTags, List.foldr_cons] at h ⊢
      rcases List.mem_append.mp h with h1 | h1
      · by_cases hk : kv.1 == k
        · rw [if_pos hk] at h1
          exact Or.inr h1
        · rw [if_neg hk] at h1
          exact Or.inl (List.mem_append.mpr (Or.inl h1))
      · rcases ih h1 with h2 | h2
        · exact Or.inl (List.mem_append.mpr (Or.inr h2))
        · exact Or.inr h2
  · rw [if_neg hany, cacheTags_append] at h
    rcases List.mem_append.mp h with h1 | h1
    · exact Or.inl h1
    · simp only [cacheTags, List.foldr_cons, List.foldr_nil,
        List.append_nil] at h1
      exact Or.inr h1

theorem serveFromCache_tag {machineId : String} {e : CacheEntry}
    {now next : Nat} {t : TaggedMap} {n' : Nat}
    (h : serveFromCache machineId e now next = some (t, n')) :
    t.tag = next ∧ n' = next + 1 := by
  obtain ⟨ts, pl⟩ := e
  unfold serveFromCache servePayload at h
  by_cases h1 : now - ts < secretCacheTimeout
  · rw [if_pos h1] at h
    by_cases h2 : pl.truthy = true
    · rw [if_pos h2] at h
      cases pl with
      | enc s =>
        simp only [decryptPayload] at h
        cases hd : decryptSecrets machineId s with
        | none => rw [hd] at h; simp at h
        | some m =>
          rw [hd] at h
          cases hm : List.isEmpty m with
          | true => simp [hm] at h
          | false =>
            simp only [hm, Bool.false_eq_true, if_false,
              Option.some.injEq, Prod.mk.injEq] at h
            obtain ⟨h4, h5⟩ := h
            subst h4
            exact ⟨rfl, h5.symm⟩
      | plain d =>
        simp only [decryptPayload] at h
        simp at h
    · rw [if_neg h2] at h
      cases pl with
      | enc s => simp at h
      | plain d =>
        simp only [Option.some.injEq, Prod.mk.injEq] at h
        exact ⟨by rw [← h.1], h.2.symm⟩
  · rw [if_neg h1] at h
    simp at h

theorem finishFetch_tags (machineId : String) (cryptoOk : Bool)
    (cache : Cache) (now next salt : Nat) (cacheKey : String)
    (content : SecretMap) (hwt : WellTagged cache next) (t : TaggedMap)
    (ht : (finishFetch machineId cryptoOk cache now next salt cacheKey
        content).result = .ok t) :
    t.tag ∉ cacheTags (finishFetch machineId cryptoOk cache now next salt
        cacheKey content).cache := by
  have hres := (finishFetch_result machineId cryptoOk cache now next salt
    cacheKey content).1
  rw [hres, Except.ok.injEq] at ht
  subst ht
  unfold finishFetch
  cases he : encryptSecrets cryptoOk machineId salt content with
  | some encData =>
    simp only []
    intro hmem
    rcases mem_cacheTags_store _ _ _ hmem with h1 | h1
    · exact absurd (hwt _ h1) (lt_irrefl next)
    · simp [payloadTags] at h1
  | none =>
    simp only []
    intro hmem
    rcases mem_cacheTags_store _ _ _ hmem with h1 | h1
    · exact absurd (hwt _ h1) (lt_irrefl next)
    · simp only [payloadTags, List.mem_singleton] at h1
      omega

theorem fetchFromGateway_shape (machineId : String) (cryptoOk : Bool)
    (env : Env) (gw : Gateway) (cache : Cache) (now next salt : Nat)
    (projId : Option String) (cacheKey : String) :
    (∃ e, fetchFromGateway machineId cryptoOk env gw cache now next salt
        projId cacheKey = ⟨.error e, cache, next, 0⟩)
  ∨ (∃ e, fetchFromGateway machineId cryptoOk env gw cache now next salt
        projId cacheKey = ⟨.error e, cache, next, 1⟩)
  ∨ (∃ e, fetchFromGateway machineId cryptoOk env gw cache now next salt
        projId cacheKey = ⟨.error e, cache, next + 1, 1⟩)
  ∨ (fetchFromGateway machineId cryptoOk env gw cache now next salt projId
        cacheKey = ⟨.ok ⟨next + 1, []⟩, cache, next + 2, 1⟩)
  ∨ (∃ content, fetchFromGateway machineId cryptoOk env gw cache now next
        salt projId cacheKey
        = finishFetch machineId cryptoOk cache now next salt cacheKey
            content) := by
  unfold fetchFromGateway
  rcases clientInit env with e | u
  · exact Or.inl ⟨e, rfl⟩
  · rcases gw.syncResult with e | u'
    · exact Or.inr (Or.inl ⟨e, rfl⟩)
    · rcases gw.listResult with e | ids
      · exact Or.inr (Or.inr (Or.inl ⟨e, rfl⟩))
      · rcases ids with _ | ids
        · exact Or.inr (Or.inr (Or.inr (Or.inl rfl)))
        · simp only []
          rcases hi : ids.isEmpty with _ | _
          · simp only [Bool.false_eq_true, if_false]
            rcases gw.detailResult with e | recs
            · exact Or.inr (Or.inr (Or.inl ⟨e, rfl⟩))
            · rcases recs with _ | recs
              · exact Or.inr (Or.inr (Or.inr (Or.inl rfl)))
              · exact Or.inr (Or.inr (Or.inr (Or.inr ⟨_, rfl⟩)))
          · simp only [if_true]
            exact Or.inr (Or.inr (Or.inr (Or.inr ⟨[], rfl⟩)))

theorem fetchFromGateway_tags (machineId : String) (cryptoOk : Bool)
    (env : Env) (gw : Gateway) (cache : Cache) (now next salt : Nat)
    (projId : Option String) (cacheKey : String)
    (hwt : WellTagged cache next) (t : TaggedMap)
    (ht : (fetchFromGateway machineId cryptoOk env gw cache now next salt
        projId cacheKey).result = .ok t) :
    t.tag ∉ cacheTags (fetchFromGateway machineId cryptoOk env gw cache now
        next salt projId cacheKey).cache := by
  rcases fetchFromGateway_shape machineId cryptoOk env gw cache now next
      salt projId cacheKey with
    ⟨e, heq⟩ | ⟨e, heq⟩ | ⟨e, heq⟩ | heq | ⟨content, heq⟩
  · rw [heq] at ht; exact absurd ht (by simp)
  · rw [heq] at ht; exact absurd ht (by simp)
  · rw [heq] at ht; exact absurd ht (by simp)
  · rw [heq] at ht ⊢
    simp only [Except.ok.injEq] at ht
    subst ht
    intro hmem
    have := hwt _ hmem
    simp only [] at *
    omega
  · rw [heq] at ht ⊢
    exact finishFetch_tags machineId cryptoOk cache now next salt cacheKey
      content hwt t ht

theorem loadSecrets_shape (machineId : String) (cryptoOk : Bool) (env : Env)
    (gw : Gateway) (cache : Cache) (now next salt : Nat)
    (orgId projId : Option String) :
    (loadSecrets machineId cryptoOk env gw cache now next salt orgId projId
        = ⟨.error (.valueError
            "ORGANIZATION_ID environment variable is required"),
            cache, next, 0⟩)
  ∨ (∃ e t' n', cacheLookup cache (pyOrEmpty (resolveOrg env orgId) ++ ":"
        ++ pyOrEmpty projId) = some e
      ∧ serveFromCache machineId e now next = some (t', n')
      ∧ loadSecrets machineId cryptoOk env gw cache now next salt orgId
          projId = ⟨.ok t', cache, n', 0⟩)
  ∨ (loadSecrets machineId cryptoOk env gw cache now next salt orgId projId
        = fetchFromGateway machineId cryptoOk env gw cache now next salt
            projId
            (pyOrEmpty (resolveOrg env orgId) ++ ":" ++ pyOrEmpty projId))
    := by
  by_cases horg : pyTruthy (resolveOrg env orgId) = true
  · cases hl : cacheLookup cache (pyOrEmpty (resolveOrg env orgId) ++ ":"
        ++ pyOrEmpty projId) with
    | none =>
      refine Or.inr (Or.inr ?_)
      unfold loadSecrets
      rw [if_pos horg]
      simp [hl]
    | some e =>
      cases hs : serveFromCache machineId e now next with
      | none =>
        refine Or.inr (Or.inr ?_)
        unfold loadSecrets
        rw [if_pos horg]
        simp [hl, hs]
      | some p =>
        obtain ⟨t', n'⟩ := p
        refine Or.inr (Or.inl ⟨e, t', n', rfl, hs, ?_⟩)
        unfold loadSecrets
        rw [if_pos horg]
        simp [hl, hs]
  · refine Or.inl ?_
    unfold loadSecrets
    rw [if_neg horg]

theorem vaultGet_shape (machineId : String) (cryptoOk : Bool) (env : Env)
    (gw : Gateway) (cache : Cache) (now next salt : Nat)
    (orgId projId : Option String) (refresh : Bool) :
    (vaultGet machineId cryptoOk env gw cache now next salt orgId projId
        refresh
      = loadSecrets machineId cryptoOk env gw cache now next salt orgId
          projId)
  ∨ (∃ e t' n', cacheLookup cache (pyFormatOpt orgId ++ ":" ++
        pyOrEmpty projId) = some e
      ∧ serveFromCache machineId e now next = some (t', n')
      ∧ vaultGet machineId cryptoOk env gw cache now next salt orgId projId
          refresh = ⟨.ok t', cache, n', 0⟩) := by
  cases refresh with
  | true => exact Or.inl (vaultGet_refresh machineId cryptoOk env gw cache
      now next salt orgId projId)
  | false =>
    cases hl : cacheLookup cache (pyFormatOpt orgId ++ ":" ++
        pyOrEmpty projId) with
    | none =>
      refine Or.inl ?_
      unfold vaultGet
      simp [hl]
    | some e =>
      cases hs : serveFromCache machineId e now next with
      | none =>
        refine Or.inl ?_
        unfold vaultGet
        simp [hl, hs]
      | some p =>
        obtain ⟨t', n'⟩ := p
        refine Or.inr ⟨e, t', n', rfl, hs, ?_⟩
        unfold vaultGet
        simp [hl, hs]

theorem servePayload_enc_none {machineId : String} {s : List Char}
    (next : Nat) (h : decryptSecrets machineId s = none) :
    servePayload machineId (.enc s) next = none := by
  unfold servePayload
  by_cases h2 : (Payload.enc s).truthy = true
  · rw [if_pos h2]
    simp [decryptPayload, h]
  · rw [if_neg h2]

theorem serveFromCache_of_payload {machineId : String} {entry : CacheEntry}
    {now next : Nat}
    (h : servePayload machineId entry.payload next = none) :
    serveFromCache machineId entry now next = none := by
  unfold serveFromCache
  by_cases h1 : now - entry.timestamp < secretCacheTimeout
  · rw [if_pos h1]; exact h
  · rw [if_neg h1]

theorem serveFromCache_stale {machineId : String} {entry : CacheEntry}
    {now next : Nat}
    (h : ¬ now - entry.timestamp < secretCacheTimeout) :
    serveFromCache machineId entry now next = none := by
  unfold serveFromCache
  rw [if_neg h]

theorem serveFromCache_fresh {machineId : String} {entry : CacheEntry}
    {now next : Nat} (h : now - entry.timestamp < secretCacheTimeout) :
    serveFromCache machineId entry now next
      = servePayload machineId entry.payload next := by
  unfold serveFromCache
  rw [if_pos h]

theorem loadSecrets_tags (machineId : String) (cryptoOk : Bool) (env : Env)
    (gw : Gateway) (cache : Cache) (now next salt : Nat)
    (orgId projId : Option String) (hwt : WellTagged cache next)
    (t : TaggedMap)
    (ht : (loadSecrets machineId cryptoOk env gw cache now next salt orgId
        projId).result = .ok t) :
    t.tag ∉ cacheTags (loadSecrets machineId cryptoOk env gw cache now next
        salt orgId projId).cache := by
  rcases loadSecrets_shape machineId cryptoOk env gw cache now next salt
      orgId projId with heq | ⟨e, t', n', _, hs, heq⟩ | heq
  · rw [heq] at ht; exact absurd ht (by simp)
  · rw [heq] at ht ⊢
    simp only [Except.ok.injEq] at ht
    subst ht
    have := (serveFromCache_tag hs).1
    intro hmem
    have h2 := hwt _ hmem
    simp only [] at *
    omega
  · rw [heq] at ht ⊢
    exact fetchFromGateway_tags machineId cryptoOk env gw cache now next
      salt projId _ hwt t ht

theorem vaultGet_tags (machineId : String) (cryptoOk : Bool) (env : Env)
    (gw : Gateway) (cache : Cache) (now next salt : Nat)
    (orgId projId : Option String) (refresh : Bool)
    (hwt : WellTagged cache next) (t : TaggedMap)
    (ht : (vaultGet machineId cryptoOk env gw cache now next salt orgId
        projId refresh).result = .ok t) :
    t.tag ∉ cacheTags (vaultGet machineId cryptoOk env gw cache now next
        salt orgId projId refresh).cache := by
  rcases vaultGet_shape machineId cryptoOk env gw cache now next salt orgId
      projId refresh with heq | ⟨e, t', n', _, hs, heq⟩
  · rw [heq] at ht ⊢
    exact loadSecrets_tags machineId cryptoOk env gw cache now next salt
      orgId projId hwt t ht
  · rw [heq] at ht ⊢
    simp only [Except.ok.injEq] at ht
    subst ht
    have := (serveFromCache_tag hs).1
    intro hmem
    have h2 := hwt _ hmem
    simp only [] at *
    omega

theorem processStep_mem (projId : Option String)
    (recs : List SecretRecord) :
    ∀ (acc : SecretMap) (r : SecretRecord), r ∈ recs → r.projectId = none →
      containsKey (recs.foldl
        (fun acc r => if skipSecret projId r then acc
                      else dictInsert acc r.key r.value) acc) r.key = true
    := by
  induction recs with
  | nil => intro acc r hr; exact absurd hr (List.not_mem_nil r)
  | cons r' rest ih =>
    intro acc r hr hnull
    simp only [List.foldl_cons]
    rcases List.mem_cons.mp hr with h | h
    · subst h
      rw [skipSecret_none projId r hnull]
      simp only [Bool.false_eq_true, if_false]
      exact containsKey_processStep projId rest _ _
        (containsKey_dictInsert_self acc r.key r.value)
    · exact ih _ r h hnull

/-! ## The claims -/

/-- C1 (refuting evaluation): the claim states that `get` with the
force-refresh flag always invokes the gateway fetch exactly once and
returns its fresh result, bypassing any existing cache entry.  Evaluating
the embedding with a fresh, decryptable cache entry for `o:p` shows
`get(..., refresh=True)` delegates to `_load_secrets`, which serves the
stale cached map `A ↦ 1` with zero gateway invocations, even though the
gateway would have returned `B ↦ 2`. -/
theorem c1_force_refresh_served_from_cache :
    (vaultGet "M" true ⟨some "T", some "/s", some "o"⟩
      ⟨.ok (), .ok (some ["i1"]), .ok (some [⟨"i1", "B", "2", none⟩])⟩
      [("o:p", ⟨0, .enc (encodeSalt 7 ++ ':' ::
        fernetEncrypt (generateEncryptionKey "M" 7)
          (jsonDumps [("A", "1")]))⟩)]
      10 0 5 (some "o") (some "p") true).gatewayCalls = 0
  ∧ (vaultGet "M" true ⟨some "T", some "/s", some "o"⟩
      ⟨.ok (), .ok (some ["i1"]), .ok (some [⟨"i1", "B", "2", none⟩])⟩
      [("o:p", ⟨0, .enc (encodeSalt 7 ++ ':' ::
        fernetEncrypt (generateEncryptionKey "M" 7)
          (jsonDumps [("A", "1")]))⟩)]
      10 0 5 (some "o") (some "p") true).resultVal = .ok [("A", "1")] :=
  ⟨rfl, rfl⟩

/-- C2 (refuting evaluation): the claim states that an unexpired cache
entry holding a plain (unencrypted) mapping is returned as a copy, without
attempting decryption and without invoking the gateway.  Evaluating the
embedding on a fresh plaintext entry `A ↦ 1` shows the non-empty dict is
truthy, so the code feeds it to `_decrypt_secrets` (which fails on a dict)
and falls through to a full gateway fetch: one gateway call, and the fresh
`B ↦ 2` is returned instead of the cached map. -/
theorem c2_plaintext_entry_not_served :
    (vaultGet "M" true ⟨some "T", some "/s", some "o"⟩
      ⟨.ok (), .ok (some ["i1"]), .ok (some [⟨"i1", "B", "2", none⟩])⟩
      [("o:p", ⟨0, .plain ⟨0, [("A", "1")]⟩⟩)]
      10 1 5 (some "o") (some "p") false).gatewayCalls = 1
  ∧ (vaultGet "M" true ⟨some "T", some "/s", some "o"⟩
      ⟨.ok (), .ok (some ["i1"]), .ok (some [⟨"i1", "B", "2", none⟩])⟩
      [("o:p", ⟨0, .plain ⟨0, [("A", "1")]⟩⟩)]
      10 1 5 (some "o") (some "p") false).resultVal = .ok [("B", "2")] :=
  ⟨rfl, rfl⟩

/-- C3: for every mapping `m` of secret names to values, if
`_encrypt_secrets(m)` succeeds (returns a payload rather than `None`),
then `_decrypt_secrets` of that payload under the same machine identity
returns exactly `m`. -/
theorem c3_encrypt_decrypt_roundtrip (cryptoOk : Bool) (machineId : String)
    (salt : Nat) (m : SecretMap) (p : List Char)
    (h : encryptSecrets cryptoOk machineId salt m = some p) :
    decryptSecrets machineId p = some m :=
  decryptSecrets_encryptSecrets cryptoOk machineId salt m p h

/-- C3 witness: the round trip evaluated at a concrete map. -/
theorem c3_encrypt_decrypt_roundtrip_witness :
    decryptSecrets "M" (encodeSalt 5 ++ ':' ::
      fernetEncrypt (generateEncryptionKey "M" 5) (jsonDumps [("A", "1")]))
      = some [("A", "1")] :=
  c3_encrypt_decrypt_roundtrip true "M" 5 [("A", "1")] _ rfl

theorem pyFormatOpt_some (s : String) : pyFormatOpt (some s) = s := rfl

/-- C4: `_decrypt_secrets` is total and returns `None` on failure — a
payload with no colon separator fails cleanly; a payload encrypted under a
different machine identity decrypts to `None` rather than crashing or
producing a garbage map; and inside `get` a `None` decrypt result on a
fresh cache entry acts as a cache miss that triggers exactly one fresh
gateway fetch whose result is returned, never an error. -/
theorem c4_null_decrypt_is_miss :
    (∀ (machineId : String) (s : List Char), ':' ∉ s →
        decryptSecrets machineId s = none)
  ∧ (∀ (cryptoOk : Bool) (machineId machineId' : String) (salt : Nat)
        (m : SecretMap) (p : List Char), machineId' ≠ machineId →
        encryptSecrets cryptoOk machineId salt m = some p →
        decryptSecrets machineId' p = none)
  ∧ (∀ (machineId : String) (cryptoOk : Bool) (env : Env) (gw : Gateway)
        (cache : Cache) (now next salt : Nat) (org : String)
        (projId : Option String) (entry : CacheEntry) (s : List Char)
        (ids : List String) (recs : List SecretRecord),
        org.isEmpty = false →
        cacheLookup cache (org ++ ":" ++ pyOrEmpty projId) = some entry →
        entry.payload = .enc s →
        decryptSecrets machineId s = none →
        pyTruthy env.bwsToken = true → pyTruthy env.stateFile = true →
        gw.syncResult = .ok () → gw.listResult = .ok (some ids) →
        ids ≠ [] → gw.detailResult = .ok (some recs) →
        (vaultGet machineId cryptoOk env gw cache now next salt (some org)
            projId false).resultVal = .ok (processSecrets projId recs)
        ∧ (vaultGet machineId cryptoOk env gw cache now next salt
            (some org) projId false).gatewayCalls = 1) := by
  refine ⟨?_, ?_, ?_⟩
  · intro machineId s h
    unfold decryptSecrets
    rw [splitFirst_eq_none ':' s h]
  · intro cryptoOk machineId machineId' salt m p hne h
    cases cryptoOk with
    | false => simp [encryptSecrets] at h
    | true =>
      rw [show encryptSecrets true machineId salt m
            = some (encodeSalt salt ++ ':' ::
                fernetEncrypt (generateEncryptionKey machineId salt)
                  (jsonDumps m)) from rfl,
        Option.some.injEq] at h
      subst h
      have hfor : fernetDecrypt (generateEncryptionKey machineId' salt)
          (fernetEncrypt (generateEncryptionKey machineId salt)
            (jsonDumps m)) = none :=
        fernetDecrypt_foreign _ _ _
          (fun hk => hne (congrArg Prod.fst hk))
      simp only [decryptSecrets, encodeSalt, splitFirst_salt,
        decodeSalt_replicate, hfor]
  · intro machineId cryptoOk env gw cache now next salt org projId entry s
      ids recs horg hl hpay hdec htok hsf hsync hlist hne hdet
    have hserve : serveFromCache machineId entry now next = none := by
      apply serveFromCache_of_payload
      rw [hpay]
      exact servePayload_enc_none next hdec
    have hmiss0 : ∀ e, cacheLookup cache (org ++ ":" ++ pyOrEmpty projId)
        = some e → serveFromCache machineId e now next = none := by
      intro e he
      rw [hl] at he
      injection he with h2
      subst h2
      exact hserve
    have hmissG : ∀ e, cacheLookup cache
        (pyFormatOpt (some org) ++ ":" ++ pyOrEmpty projId) = some e →
        serveFromCache machineId e now next = none := by
      intro e he
      rw [pyFormatOpt_some] at he
      exact hmiss0 e he
    rw [vaultGet_eq_load machineId cryptoOk env gw cache now next salt
        (some org) projId hmissG,
      loadSecrets_eq_fetch machineId cryptoOk env gw cache now next salt
        projId horg hmiss0,
      fetch_success machineId cryptoOk env gw cache now next salt projId
        (org ++ ":" ++ pyOrEmpty projId) htok hsf hsync hlist hne hdet]
    constructor
    · simp only [LoadResult.resultVal,
        (finishFetch_result machineId cryptoOk cache now next salt
          (org ++ ":" ++ pyOrEmpty projId) (processSecrets projId recs)).1]
      rfl
    · exact (finishFetch_result machineId cryptoOk cache now next salt
        (org ++ ":" ++ pyOrEmpty projId) (processSecrets projId recs)).2

/-- C4 witness: the three behaviours at concrete inputs — a colon-free
payload, a payload encrypted under machine identity `M` decrypted under
`N`, and a `get` on a fresh entry whose payload does not decrypt. -/
theorem c4_null_decrypt_is_miss_witness :
    decryptSecrets "M" ['a', 'b'] = none
  ∧ decryptSecrets "N" (encodeSalt 3 ++ ':' ::
      fernetEncrypt (generateEncryptionKey "M" 3) (jsonDumps [("A", "1")]))
      = none
  ∧ ((vaultGet "M" true ⟨some "T", some "/s", some "o"⟩
        ⟨.ok (), .ok (some ["i1"]), .ok (some [⟨"i1", "B", "2", none⟩])⟩
        [("o:p", ⟨0, .enc ['z']⟩)] 10 0 5 (some "o") (some "p")
        false).resultVal
          = .ok (processSecrets (some "p") [⟨"i1", "B", "2", none⟩])
      ∧ (vaultGet "M" true ⟨some "T", some "/s", some "o"⟩
          ⟨.ok (), .ok (some ["i1"]), .ok (some [⟨"i1", "B", "2", none⟩])⟩
          [("o:p", ⟨0, .enc ['z']⟩)] 10 0 5 (some "o") (some "p")
          false).gatewayCalls = 1) :=
  ⟨c4_null_decrypt_is_miss.1 "M" ['a', 'b'] (by decide),
   c4_null_decrypt_is_miss.2.1 true "M" "N" 3 [("A", "1")] _
     (by decide) rfl,
   c4_null_decrypt_is_miss.2.2 "M" true ⟨some "T", some "/s", some "o"⟩
     ⟨.ok (), .ok (some ["i1"]), .ok (some [⟨"i1", "B", "2", none⟩])⟩
     [("o:p", ⟨0, .enc ['z']⟩)] 10 0 5 "o" (some "p")
     ⟨0, .enc ['z']⟩ ['z'] ["i1"] [⟨"i1", "B", "2", none⟩]
     rfl rfl rfl rfl rfl rfl rfl rfl (by decide) rfl⟩

/-- C5: with the TTL constant equal to 300 seconds, a `get` without
force-refresh at any time strictly before `t0 + TTL` attempts to serve the
entry written at `t0` (and returns its payload, with no gateway call, when
the payload yields a servable result), while a `get` at or after
`t0 + TTL` bypasses the entry and triggers exactly one fresh gateway
fetch. -/
theorem c5_ttl_boundary (machineId : String) (cryptoOk : Bool) (env : Env)
    (gw : Gateway) (cache : Cache) (now next salt : Nat) (org : String)
    (projId : Option String) (entry : CacheEntry) (t : TaggedMap) (n' : Nat)
    (ids : List String) (recs : List SecretRecord)
    (horg : org.isEmpty = false)
    (hl : cacheLookup cache (org ++ ":" ++ pyOrEmpty projId) = some entry) :
    secretCacheTimeout = 300
  ∧ (now < entry.timestamp + 300 →
      servePayload machineId entry.payload next = some (t, n') →
      vaultGet machineId cryptoOk env gw cache now next salt (some org)
        projId false = ⟨.ok t, cache, n', 0⟩)
  ∧ (entry.timestamp + 300 ≤ now →
      pyTruthy env.bwsToken = true → pyTruthy env.stateFile = true →
      gw.syncResult = .ok () → gw.listResult = .ok (some ids) → ids ≠ [] →
      gw.detailResult = .ok (some recs) →
      (vaultGet machineId cryptoOk env gw cache now next salt (some org)
          projId false).gatewayCalls = 1
      ∧ (vaultGet machineId cryptoOk env gw cache now next salt (some org)
          projId false).resultVal = .ok (processSecrets projId recs)) := by
  refine ⟨rfl, ?_, ?_⟩
  · intro hfresh hsp
    have hs : serveFromCache machineId entry now next = some (t, n') := by
      rw [serveFromCache_fresh (by unfold secretCacheTimeout; omega)]
      exact hsp
    exact vaultGet_cache_hit machineId cryptoOk env gw cache now next salt
      (some org) projId (by rw [pyFormatOpt_some]; exact hl) hs
  · intro hexp htok hsf hsync hlist hne hdet
    have hserve : serveFromCache machineId entry now next = none :=
      serveFromCache_stale (by unfold secretCacheTimeout; omega)
    have hmiss0 : ∀ e, cacheLookup cache (org ++ ":" ++ pyOrEmpty projId)
        = some e → serveFromCache machineId e now next = none := by
      intro e he
      rw [hl] at he
      injection he with h2
      subst h2
      exact hserve
    have hmissG : ∀ e, cacheLookup cache
        (pyFormatOpt (some org) ++ ":" ++ pyOrEmpty projId) = some e →
        serveFromCache machineId e now next = none := by
      intro e he
      rw [pyFormatOpt_some] at he
      exact hmiss0 e he
    rw [vaultGet_eq_load machineId cryptoOk env gw cache now next salt
        (some org) projId hmissG,
      loadSecrets_eq_fetch machineId cryptoOk env gw cache now next salt
        projId horg hmiss0,
      fetch_success machineId cryptoOk env gw cache now next salt projId
        (org ++ ":" ++ pyOrEmpty projId) htok hsf hsync hlist hne hdet]
    constructor
    · exact (finishFetch_result machineId cryptoOk cache now next salt
        (org ++ ":" ++ pyOrEmpty projId) (processSecrets projId recs)).2
    · simp only [LoadResult.resultVal,
        (finishFetch_result machineId cryptoOk cache now next salt
          (org ++ ":" ++ pyOrEmpty projId) (processSecrets projId recs)).1]
      rfl

/-- C5 witness: a concrete entry written at time 0 is served at time 10
without a gateway call, and at time 400 one gateway fetch happens and the
fresh result is returned. -/
theorem c5_ttl_boundary_witness :
    (vaultGet "M" true ⟨some "T", some "/s", some "o"⟩
      ⟨.ok (), .ok (some ["i1"]), .ok (some [⟨"i1", "B", "2", none⟩])⟩
      [("o:", ⟨0, .plain ⟨0, []⟩⟩)] 10 0 5 (some "o") none false
      = ⟨.ok ⟨0, []⟩, [("o:", ⟨0, .plain ⟨0, []⟩⟩)], 1, 0⟩)
  ∧ ((vaultGet "M" true ⟨some "T", some "/s", some "o"⟩
      ⟨.ok (), .ok (some ["i1"]), .ok (some [⟨"i1", "B", "2", none⟩])⟩
      [("o:", ⟨0, .plain ⟨0, []⟩⟩)] 400 0 5 (some "o") none
      false).gatewayCalls = 1
    ∧ (vaultGet "M" true ⟨some "T", some "/s", some "o"⟩
      ⟨.ok (), .ok (some ["i1"]), .ok (some [⟨"i1", "B", "2", none⟩])⟩
      [("o:", ⟨0, .plain ⟨0, []⟩⟩)] 400 0 5 (some "o") none
      false).resultVal
        = .ok (processSecrets none [⟨"i1", "B", "2", none⟩])) :=
  ⟨(c5_ttl_boundary "M" true ⟨some "T", some "/s", some "o"⟩
      ⟨.ok (), .ok (some ["i1"]), .ok (some [⟨"i1", "B", "2", none⟩])⟩
      [("o:", ⟨0, .plain ⟨0, []⟩⟩)] 10 0 5 "o" none ⟨0, .plain ⟨0, []⟩⟩
      ⟨0, []⟩ 1 ["i1"] [⟨"i1", "B", "2", none⟩] rfl rfl).2.1
      (by decide) rfl,
   (c5_ttl_boundary "M" true ⟨some "T", some "/s", some "o"⟩
      ⟨.ok (), .ok (some ["i1"]), .ok (some [⟨"i1", "B", "2", none⟩])⟩
      [("o:", ⟨0, .plain ⟨0, []⟩⟩)] 400 0 5 "o" none ⟨0, .plain ⟨0, []⟩⟩
      ⟨0, []⟩ 1 ["i1"] [⟨"i1", "B", "2", none⟩] rfl rfl).2.2
      (by decide) rfl rfl rfl rfl (by decide) rfl⟩

/-- C6 counterexample: the claim states that with the access token absent
a `get` call surfaces the configuration error even when a fresh cache
entry exists.  Evaluating the embedding with `BWS_TOKEN` unset and a
fresh, decryptable entry for `o:p` shows the call succeeds from the cache
(`A ↦ 1`, zero gateway invocations) and no error is raised. -/
theorem c6_fresh_entry_beats_missing_token :
    (vaultGet "M" true ⟨none, some "/s", some "o"⟩
      ⟨.ok (), .ok (some ["i1"]), .ok (some [⟨"i1", "B", "2", none⟩])⟩
      [("o:p", ⟨0, .enc (encodeSalt 7 ++ ':' ::
        fernetEncrypt (generateEncryptionKey "M" 7)
          (jsonDumps [("A", "1")]))⟩)]
      10 0 5 (some "o") (some "p") false).resultVal = .ok [("A", "1")]
  ∧ (vaultGet "M" true ⟨none, some "/s", some "o"⟩
      ⟨.ok (), .ok (some ["i1"]), .ok (some [⟨"i1", "B", "2", none⟩])⟩
      [("o:p", ⟨0, .enc (encodeSalt 7 ++ ':' ::
        fernetEncrypt (generateEncryptionKey "M" 7)
          (jsonDumps [("A", "1")]))⟩)]
      10 0 5 (some "o") (some "p") false).gatewayCalls = 0 :=
  ⟨rfl, rfl⟩

/-- C6 (amended): a missing access token or state-file path surfaces as
the corresponding configuration `ValueError` only when the gateway must be
contacted — that is, when no unexpired cache entry yields a servable
result; when a fresh servable entry exists, its value is returned and the
configuration is never consulted. -/
theorem c6_config_error_needs_miss (machineId : String) (cryptoOk : Bool)
    (env : Env) (gw : Gateway) (cache : Cache) (now next salt : Nat)
    (org : String) (projId : Option String)
    (horg : org.isEmpty = false) :
    (pyTruthy env.bwsToken = false →
      (∀ e, cacheLookup cache (org ++ ":" ++ pyOrEmpty projId) = some e →
          serveFromCache machineId e now next = none) →
      (vaultGet machineId cryptoOk env gw cache now next salt (some org)
          projId false).result
        = .error (.valueError "BWS_TOKEN environment variable is required"))
  ∧ (pyTruthy env.bwsToken = true → pyTruthy env.stateFile = false →
      (∀ e, cacheLookup cache (org ++ ":" ++ pyOrEmpty projId) = some e →
          serveFromCache machineId e now next = none) →
      (vaultGet machineId cryptoOk env gw cache now next salt (some org)
          projId false).result
        = .error (.valueError
            "STATE_FILE environment variable is required"))
  ∧ (∀ e t n', cacheLookup cache (org ++ ":" ++ pyOrEmpty projId) = some e
      → serveFromCache machineId e now next = some (t, n') →
      vaultGet machineId cryptoOk env gw cache now next salt (some org)
        projId false = ⟨.ok t, cache, n', 0⟩) := by
  refine ⟨?_, ?_, ?_⟩
  · intro htok hmiss0
    have hmissG : ∀ e, cacheLookup cache
        (pyFormatOpt (some org) ++ ":" ++ pyOrEmpty projId) = some e →
        serveFromCache machineId e now next = none := by
      intro e he
      rw [pyFormatOpt_some] at he
      exact hmiss0 e he
    rw [vaultGet_eq_load machineId cryptoOk env gw cache now next salt
        (some org) projId hmissG,
      loadSecrets_eq_fetch machineId cryptoOk env gw cache now next salt
        projId horg hmiss0,
      fetch_missing_token machineId cryptoOk env gw cache now next salt
        projId (org ++ ":" ++ pyOrEmpty projId) htok]
  · intro htok hsf hmiss0
    have hmissG : ∀ e, cacheLookup cache
        (pyFormatOpt (some org) ++ ":" ++ pyOrEmpty projId) = some e →
        serveFromCache machineId e now next = none := by
      intro e he
      rw [pyFormatOpt_some] at he
      exact hmiss0 e he
    rw [vaultGet_eq_load machineId cryptoOk env gw cache now next salt
        (some org) projId hmissG,
      loadSecrets_eq_fetch machineId cryptoOk env gw cache now next salt
        projId horg hmiss0,
      fetch_missing_state_file machineId cryptoOk env gw cache now next
        salt projId (org ++ ":" ++ pyOrEmpty projId) htok hsf]
  · intro e t n' hl hs
    exact vaultGet_cache_hit machineId cryptoOk env gw cache now next salt
      (some org) projId (by rw [pyFormatOpt_some]; exact hl) hs

/-- C6 witness: with an empty cache and the token unset the configuration
error is surfaced; with a fresh servable entry the cached value wins. -/
theorem c6_config_error_needs_miss_witness :
    (vaultGet "M" true ⟨none, some "/s", some "o"⟩
      ⟨.ok (), .ok (some ["i1"]), .ok (some [⟨"i1", "B", "2", none⟩])⟩
      [] 10 0 5 (some "o") (some "p") false).result
      = .error (.valueError "BWS_TOKEN environment variable is required")
  ∧ (vaultGet "M" true ⟨none, some "/s", some "o"⟩
      ⟨.ok (), .ok (some ["i1"]), .ok (some [⟨"i1", "B", "2", none⟩])⟩
      [("o:", ⟨0, .plain ⟨0, []⟩⟩)] 10 0 5 (some "o") none false
      = ⟨.ok ⟨0, []⟩, [("o:", ⟨0, .plain ⟨0, []⟩⟩)], 1, 0⟩) :=
  ⟨(c6_config_error_needs_miss "M" true ⟨none, some "/s", some "o"⟩
      ⟨.ok (), .ok (some ["i1"]), .ok (some [⟨"i1", "B", "2", none⟩])⟩
      [] 10 0 5 "o" (some "p") rfl).1 rfl
      (fun _ h => Option.noConfusion h),
   (c6_config_error_needs_miss "M" true ⟨none, some "/s", some "o"⟩
      ⟨.ok (), .ok (some ["i1"]), .ok (some [⟨"i1", "B", "2", none⟩])⟩
      [("o:", ⟨0, .plain ⟨0, []⟩⟩)] 10 0 5 "o" none rfl).2.2
      ⟨0, .plain ⟨0, []⟩⟩ ⟨0, []⟩ 1 rfl rfl⟩

/-- C7: when the gateway fetch raises, `_load_secrets` propagates exactly
that exception to its caller, starts the fetch sequence exactly once (no
retry), and leaves the cache exactly as it was (failures are not
cached). -/
theorem c7_provider_error_propagated (machineId : String) (cryptoOk : Bool)
    (env : Env) (gw : Gateway) (cache : Cache) (now next salt : Nat)
    (org : String) (projId : Option String) (e : PyErr)
    (horg : org.isEmpty = false)
    (hmiss : ∀ en, cacheLookup cache (org ++ ":" ++ pyOrEmpty projId)
        = some en → serveFromCache machineId en now next = none)
    (htok : pyTruthy env.bwsToken = true)
    (hsf : pyTruthy env.stateFile = true)
    (herr : gw.syncResult = .error e
      ∨ (gw.syncResult = .ok () ∧ gw.listResult = .error e)
      ∨ (gw.syncResult = .ok ()
          ∧ (∃ ids, gw.listResult = .ok (some ids) ∧ ids ≠ [])
          ∧ gw.detailResult = .error e)) :
    (loadSecrets machineId cryptoOk env gw cache now next salt (some org)
        projId).result = .error e
  ∧ (loadSecrets machineId cryptoOk env gw cache now next salt (some org)
        projId).cache = cache
  ∧ (loadSecrets machineId cryptoOk env gw cache now next salt (some org)
        projId).gatewayCalls = 1 := by
  rw [loadSecrets_eq_fetch machineId cryptoOk env gw cache now next salt
    projId horg hmiss]
  rcases herr with hsync | ⟨hsync, hlist⟩ | ⟨hsync, ⟨ids, hlist, hne⟩, hdet⟩
  · rw [fetch_sync_error machineId cryptoOk env gw cache now next salt
      projId (org ++ ":" ++ pyOrEmpty projId) htok hsf hsync]
    exact ⟨rfl, rfl, rfl⟩
  · rw [fetch_list_error machineId cryptoOk env gw cache now next salt
      projId (org ++ ":" ++ pyOrEmpty projId) htok hsf hsync hlist]
    exact ⟨rfl, rfl, rfl⟩
  · rw [fetch_detail_error machineId cryptoOk env gw cache now next salt
      projId (org ++ ":" ++ pyOrEmpty projId) htok hsf hsync hlist hne
      hdet]
    exact ⟨rfl, rfl, rfl⟩

/-- C7 witness: a concrete sync failure propagates unchanged with the
cache untouched and a single fetch attempt. -/
theorem c7_provider_error_propagated_witness :
    (loadSecrets "M" true ⟨some "T", some "/s", some "o"⟩
      ⟨.error (.provider "boom"), .ok none, .ok none⟩
      [] 10 0 5 (some "o") (some "p")).result = .error (.provider "boom")
  ∧ (loadSecrets "M" true ⟨some "T", some "/s", some "o"⟩
      ⟨.error (.provider "boom"), .ok none, .ok none⟩
      [] 10 0 5 (some "o") (some "p")).cache = []
  ∧ (loadSecrets "M" true ⟨some "T", some "/s", some "o"⟩
      ⟨.error (.provider "boom"), .ok none, .ok none⟩
      [] 10 0 5 (some "o") (some "p")).gatewayCalls = 1 :=
  c7_provider_error_propagated "M" true ⟨some "T", some "/s", some "o"⟩
    ⟨.error (.provider "boom"), .ok none, .ok none⟩ [] 10 0 5 "o"
    (some "p") (.provider "boom") rfl (fun _ h => Option.noConfusion h)
    rfl rfl (Or.inl rfl)

/-- C8: for every supplied project filter and every fetched secret record
whose provider-reported project association is absent or null, the record
is included in the mapping built by the filter loop (unscoped secrets
match every filter, including mismatched ones). -/
theorem c8_unscoped_secret_included (projId : Option String)
    (recs : List SecretRecord) (r : SecretRecord)
    (hr : r ∈ recs) (hnull : r.projectId = none) :
    containsKey (processSecrets projId recs) r.key = true := by
  unfold processSecrets
  exact processStep_mem projId recs [] r hr hnull

/-- C8 witness: a record with no project association passes a mismatched
filter. -/
theorem c8_unscoped_secret_included_witness :
    containsKey (processSecrets (some "zzz") [⟨"i1", "K", "V", none⟩]) "K"
      = true :=
  c8_unscoped_secret_included (some "zzz") [⟨"i1", "K", "V", none⟩]
    ⟨"i1", "K", "V", none⟩ (by decide) rfl

/-- C9: returned mappings are independent of cache state.  With allocation
ghost tags (every dict object the code allocates gets a fresh tag), if all
dicts the cache references predate the allocation counter, then the dict
returned by `_load_secrets` or `get` is never one of the dict objects the
resulting cache references — so mutating a returned mapping cannot change
what a later cache hit returns. -/
theorem c9_returned_copies_independent (machineId : String)
    (cryptoOk : Bool) (env : Env) (gw : Gateway) (cache : Cache)
    (now next salt : Nat) (orgId projId : Option String) (refresh : Bool)
    (hwt : WellTagged cache next) :
    (∀ t, (loadSecrets machineId cryptoOk env gw cache now next salt orgId
        projId).result = .ok t →
      t.tag ∉ cacheTags (loadSecrets machineId cryptoOk env gw cache now
        next salt orgId projId).cache)
  ∧ (∀ t, (vaultGet machineId cryptoOk env gw cache now next salt orgId
        projId refresh).result = .ok t →
      t.tag ∉ cacheTags (vaultGet machineId cryptoOk env gw cache now next
        salt orgId projId refresh).cache) :=
  ⟨fun t ht => loadSecrets_tags machineId cryptoOk env gw cache now next
      salt orgId projId hwt t ht,
   fun t ht => vaultGet_tags machineId cryptoOk env gw cache now next salt
      orgId projId refresh hwt t ht⟩

/-- C9 witness: in a concrete run that refreshes past a plaintext cache
entry, the returned dict's tag is not among the tags the new cache
references. -/
theorem c9_returned_copies_independent_witness :
    (⟨1, [("B", "2")]⟩ : TaggedMap).tag ∉ cacheTags
      (vaultGet "M" true ⟨some "T", some "/s", some "o"⟩
        ⟨.ok (), .ok (some ["i1"]), .ok (some [⟨"i1", "B", "2", none⟩])⟩
        [("o:p", ⟨0, .plain ⟨0, [("A", "1")]⟩⟩)]
        10 1 5 (some "o") (some "p") false).cache :=
  (c9_returned_copies_independent "M" true ⟨some "T", some "/s", some "o"⟩
    ⟨.ok (), .ok (some ["i1"]), .ok (some [⟨"i1", "B", "2", none⟩])⟩
    [("o:p", ⟨0, .plain ⟨0, [("A", "1")]⟩⟩)] 10 1 5 (some "o") (some "p")
    false (by unfold WellTagged; decide)).2 ⟨1, [("B", "2")]⟩ rfl

/-- C10: when the gateway's list or get-by-ids response lacks the expected
nested `data.data` structure, `_load_secrets` returns an empty mapping
without raising and stores nothing in the cache, so a subsequent call at
any time (in particular within the TTL) starts the gateway fetch sequence
again instead of serving the empty result from cache. -/
theorem c10_malformed_response_not_cached (machineId : String)
    (cryptoOk : Bool) (env : Env) (gw : Gateway) (cache : Cache)
    (now next salt : Nat) (org : String) (projId : Option String)
    (now' next' salt' : Nat)
    (horg : org.isEmpty = false)
    (hnone : cacheLookup cache (org ++ ":" ++ pyOrEmpty projId) = none)
    (htok : pyTruthy env.bwsToken = true)
    (hsf : pyTruthy env.stateFile = true)
    (hsync : gw.syncResult = .ok ())
    (hmal : gw.listResult = .ok none
      ∨ ((∃ ids, gw.listResult = .ok (some ids) ∧ ids ≠ [])
          ∧ gw.detailResult = .ok none)) :
    (loadSecrets machineId cryptoOk env gw cache now next salt (some org)
        projId).resultVal = .ok []
  ∧ (loadSecrets machineId cryptoOk env gw cache now next salt (some org)
        projId).cache = cache
  ∧ (loadSecrets machineId cryptoOk env gw cache now next salt (some org)
        projId).gatewayCalls = 1
  ∧ (loadSecrets machineId cryptoOk env gw cache now' next' salt'
        (some org) projId).gatewayCalls = 1 := by
  have hmiss0 : ∀ e, cacheLookup cache (org ++ ":" ++ pyOrEmpty projId)
      = some e → serveFromCache machineId e now next = none := by
    intro e he
    rw [hnone] at he
    exact Option.noConfusion he
  have hmiss1 : ∀ e, cacheLookup cache (org ++ ":" ++ pyOrEmpty projId)
      = some e → serveFromCache machineId e now' next' = none := by
    intro e he
    rw [hnone] at he
    exact Option.noConfusion he
  have hsecond : (loadSecrets machineId cryptoOk env gw cache now' next'
      salt' (some org) projId).gatewayCalls = 1 := by
    rw [loadSecrets_eq_fetch machineId cryptoOk env gw cache now' next'
      salt' projId horg hmiss1]
    exact fetch_calls_one machineId cryptoOk env gw cache now' next' salt'
      projId (org ++ ":" ++ pyOrEmpty projId) htok hsf
  rw [loadSecrets_eq_fetch machineId cryptoOk env gw cache now next salt
    projId horg hmiss0]
  rcases hmal with hml | ⟨⟨ids, hlist, hne⟩, hdet⟩
  · rw [fetch_list_malformed machineId cryptoOk env gw cache now next salt
      projId (org ++ ":" ++ pyOrEmpty projId) htok hsf hsync hml]
    exact ⟨rfl, rfl, rfl, hsecond⟩
  · rw [fetch_detail_malformed machineId cryptoOk env gw cache now next
      salt projId (org ++ ":" ++ pyOrEmpty projId) htok hsf hsync hlist
      hne hdet]
    exact ⟨rfl, rfl, rfl, hsecond⟩

/-- C10 witness: a concrete malformed list response yields an empty ok
result, an unchanged cache, and one fetch on each of two calls. -/
theorem c10_malformed_response_not_cached_witness :
    (loadSecrets "M" true ⟨some "T", some "/s", some "o"⟩
      ⟨.ok (), .ok none, .ok none⟩ [] 10 0 5 (some "o")
      (some "p")).resultVal = .ok []
  ∧ (loadSecrets "M" true ⟨some "T", some "/s", some "o"⟩
      ⟨.ok (), .ok none, .ok none⟩ [] 10 0 5 (some "o")
      (some "p")).cache = []
  ∧ (loadSecrets "M" true ⟨some "T", some "/s", some "o"⟩
      ⟨.ok (), .ok none, .ok none⟩ [] 10 0 5 (some "o")
      (some "p")).gatewayCalls = 1
  ∧ (loadSecrets "M" true ⟨some "T", some "/s", some "o"⟩
      ⟨.ok (), .ok none, .ok none⟩ [] 20 0 6 (some "o")
      (some "p")).gatewayCalls = 1 :=
  c10_malformed_response_not_cached "M" true ⟨some "T", some "/s", some "o"⟩
    ⟨.ok (), .ok none, .ok none⟩ [] 10 0 5 "o" (some "p") 20 0 6
    rfl rfl rfl rfl rfl (Or.inl rfl)
